import Mathlib

/-!
Shallow embedding of `src/spectra.c` (Spectra v1.3), the digit-stream
rasterizer.  The embedding models `main`'s core: the size validation
(line 156), the color table allocated on the gd image (lines 180-189),
the inclusive double loop over raster positions (lines 192-264) with its
per-byte `switch`, and the output step `gdImagePng` (line 268).

Input bytes are modelled as `Nat` values; the input file is a `List Nat`
consumed front-to-back, with the empty list playing the role of `EOF`
(`fgetc` returning `-1`).  Errors that the C program reports by
`exit(1)` are modelled as values of `SpectraError`.
-/

/-- Error classes of the program, named as in the specification.
`InsufficientData` is the size pre-check (spectra.c line 156),
`UnexpectedLineBreak` the `case 10` branch (line 248), `PrematureEOF`
the `case -1` branch (line 253), `UnsupportedCharacter` the `default`
branch (line 258). -/
inductive SpectraError where
  | InsufficientData
  | UnexpectedLineBreak
  | PrematureEOF
  | UnsupportedCharacter
deriving DecidableEq, Repr

/-- An RGB triple, as passed to `gdImageColorAllocate`. -/
structure RGB where
  r : Nat
  g : Nat
  b : Nat
deriving DecidableEq, Repr

/-- The ten colors allocated on the image in spectra.c lines 180-189, in
allocation order: black, white, red, orange, yellow, green, blue, aqua,
pink, purple.  `gdImageColorAllocate` hands out palette indices in
order, so the color variable for the i-th call holds index i. -/
def palette : List RGB :=
  [⟨0, 0, 0⟩, ⟨255, 255, 255⟩, ⟨255, 0, 0⟩, ⟨255, 100, 0⟩, ⟨255, 255, 0⟩,
   ⟨0, 255, 0⟩, ⟨0, 0, 255⟩, ⟨0, 255, 255⟩, ⟨255, 0, 255⟩, ⟨128, 0, 128⟩]

/-- Palette index held by the C variable `black` (first allocation). -/
def black : Nat := 0
/-- Palette index held by the C variable `white`. -/
def white : Nat := 1
/-- Palette index held by the C variable `red`. -/
def red : Nat := 2
/-- Palette index held by the C variable `orange`. -/
def orange : Nat := 3
/-- Palette index held by the C variable `yellow`. -/
def yellow : Nat := 4
/-- Palette index held by the C variable `green`. -/
def green : Nat := 5
/-- Palette index held by the C variable `blue`. -/
def blue : Nat := 6
/-- Palette index held by the C variable `aqua`. -/
def aqua : Nat := 7
/-- Palette index held by the C variable `pink`. -/
def pink : Nat := 8
/-- Palette index held by the C variable `purple`. -/
def purple : Nat := 9

/-- In gd, the background of an image created by `gdImageCreate` is the
first color allocated on it; spectra.c line 180 allocates black first
("Background color is whatever is assigned first (black)"). -/
def backgroundColor : Nat := 0

/-- The digit-to-color map of the `switch` in spectra.c lines 206-247:
digit 0 is drawn with `black`, 1 with `white`, 2 with `red`, 3 with
`orange`, 4 with `yellow`, 5 with `green`, 6 with `blue`, 7 with `aqua`,
8 with `pink`, 9 with `purple`. -/
def colorMap : Nat → Nat
  | 0 => black
  | 1 => white
  | 2 => red
  | 3 => orange
  | 4 => yellow
  | 5 => green
  | 6 => blue
  | 7 => aqua
  | 8 => pink
  | _ => purple

/-- RGB triple of a palette index (the encoding collaborator's
color-identifier → RGB table). -/
def rgbOfColor (c : Nat) : RGB := palette.getD c ⟨0, 0, 0⟩

/-- The in-memory gd image: nominal dimensions `xsize` × `ysize` (the C
variables of those names) and the pixel grid, `ysize` rows of `xsize`
palette indices. -/
structure Image where
  xsize : Nat
  ysize : Nat
  pixels : List (List Nat)
deriving DecidableEq, Repr

/-- Modelled from the gd library documentation: `gdImageCreate(sx, sy)`
returns an sx × sy palette image whose pixels are all index 0 (which
becomes the background once the first color is allocated). -/
def gdImageCreate (sx sy : Nat) : Image :=
  ⟨sx, sy, List.replicate sy (List.replicate sx 0)⟩

/-- Modelled from the gd library documentation: `gdImageSetPixel` first
checks `gdImageBoundsSafe` and silently does nothing when (x, y) lies
outside the image, so out-of-range writes are clipped. -/
def gdImageSetPixel (img : Image) (x y c : Nat) : Image :=
  if x < img.xsize ∧ y < img.ysize then
    { img with pixels := img.pixels.set y ((img.pixels.getD y []).set x c) }
  else
    img

/-- Pixel of the image at column x, row y (0 outside the grid). -/
def getPixel (img : Image) (x y : Nat) : Nat :=
  (img.pixels.getD y []).getD x 0

/-- A serialized output image, produced only by the encoding step. -/
structure PngFile where
  image : Image
deriving DecidableEq, Repr

/-- Modelled from the spec: the encoding collaborator (`gdImagePng`,
spectra.c line 268) serializes a completed framebuffer; the content of
the output is fully determined by the image handed to it. -/
def gdImagePng (img : Image) : PngFile := ⟨img⟩

/-- The `occurs` array of spectra.c line 76: ten buckets, all zero. -/
def occursInit : List Nat := [0, 0, 0, 0, 0, 0, 0, 0, 0, 0]

/-- One `occurs[d]++` of the C switch: bump bucket d. -/
def incr (occ : List Nat) (d : Nat) : List Nat :=
  occ.set d (occ.getD d 0 + 1)

/-- Raster positions of the double loop in spectra.c lines 192-194, in
visit order: `for (y = 0; y <= ysize; y++) for (x = 0; x <= xsize; x++)`.
Both bounds are inclusive, so row y lists columns 0..xsize and there are
rows 0..ysize. -/
def scanPositions (xsize ysize : Nat) : List (Nat × Nat) :=
  (List.range (ysize + 1)).flatMap fun y =>
    (List.range (xsize + 1)).map fun x => (x, y)

/-- The scan loop body of spectra.c lines 192-264, one step per raster
position.  Each step reads the next input byte (`fgetc`) and dispatches
as the `switch` does: an ASCII digit b (48 ≤ b ≤ 57, cases 48-57) writes
`colorMap (b - 48)` at the current position and bumps
`occurs[b - 48]`; byte 10 (`case 10`) aborts with `UnexpectedLineBreak`;
an empty stream (`case -1`, EOF) aborts with `PrematureEOF`; anything
else (`default`) aborts with `UnsupportedCharacter`.  The second
component of the result is the part of the input not yet consumed
(the file cursor when the program stops). -/
def scan : List (Nat × Nat) → List Nat → Image → List Nat →
    Except SpectraError (Image × List Nat) × List Nat
  | [], stream, img, occ => (.ok (img, occ), stream)
  | (x, y) :: ps, stream, img, occ =>
    match stream with
    | [] => (.error .PrematureEOF, [])
    | b :: s =>
      if 48 ≤ b ∧ b ≤ 57 then
        scan ps s (gdImageSetPixel img x y (colorMap (b - 48))) (incr occ (b - 48))
      else if b = 10 then
        (.error .UnexpectedLineBreak, s)
      else
        (.error .UnsupportedCharacter, s)

/-- The rasterizer: run the scan over all positions of the inclusive
double loop, starting from the freshly created image and the all-zero
`occurs` array. -/
def rasterize (stream : List Nat) (xsize ysize : Nat) :
    Except SpectraError (Image × List Nat) × List Nat :=
  scan (scanPositions xsize ysize) stream (gdImageCreate xsize ysize) occursInit

/-- The size pre-check of spectra.c line 156: fail when
`xsize * ysize > file size`, i.e. when fewer than `xsize * ysize` bytes
are available. -/
def validate (xsize ysize avail : Nat) : Except SpectraError Unit :=
  if xsize * ysize > avail then .error .InsufficientData else .ok ()

/-- The whole pipeline of `main` after argument parsing: size check,
then the scan, then — only when the scan completed — the `gdImagePng`
encoding step.  Any error exits before the encoder runs. -/
def run (stream : List Nat) (xsize ysize : Nat) : Except SpectraError PngFile :=
  match validate xsize ysize stream.length with
  | .error e => .error e
  | .ok _ =>
    match rasterize stream xsize ysize with
    | (.ok (img, _), _) => .ok (gdImagePng img)
    | (.error e, _) => .error e

/-- Output image of a pipeline result, when one was produced. -/
def producedImage : Except SpectraError PngFile → Option PngFile
  | .ok p => some p
  | .error _ => none

/-- Histogram of a rasterizer result, when the scan succeeded. -/
def histOf (r : Except SpectraError (Image × List Nat) × List Nat) :
    Option (List Nat) :=
  match r.1 with
  | .ok (_, occ) => some occ
  | .error _ => none

example : histOf (rasterize [48, 49, 50, 51] 1 1) = some [1, 1, 1, 1, 0, 0, 0, 0, 0, 0] := by decide

example : rasterize [48, 49, 10, 51] 1 1 = (.error .UnexpectedLineBreak, [51]) := rfl

example : rasterize [48, 49, 50] 1 1 = (.error .PrematureEOF, []) := rfl

example : rasterize [48, 65, 50, 51] 1 1 = (.error .UnsupportedCharacter, [50, 51]) := rfl

/-! ### Basic lemmas about the pixel and histogram operations -/

lemma gdImageSetPixel_xsize (img : Image) (x y c : Nat) :
    (gdImageSetPixel img x y c).xsize = img.xsize := by
  unfold gdImageSetPixel; split <;> rfl

lemma gdImageSetPixel_ysize (img : Image) (x y c : Nat) :
    (gdImageSetPixel img x y c).ysize = img.ysize := by
  unfold gdImageSetPixel; split <;> rfl

lemma gdImageSetPixel_oob (img : Image) (x y c : Nat)
    (h : ¬(x < img.xsize ∧ y < img.ysize)) : gdImageSetPixel img x y c = img := by
  unfold gdImageSetPixel; exact if_neg h

lemma incr_length (occ : List Nat) (d : Nat) : (incr occ d).length = occ.length :=
  List.length_set ..

lemma incr_sum : ∀ (occ : List Nat) (d : Nat), d < occ.length →
    (incr occ d).sum = occ.sum + 1 := by
  intro occ
  induction occ with
  | nil => intro d h; simp at h
  | cons a t ih =>
    intro d h
    cases d with
    | zero => simp [incr]; omega
    | succ d =>
      have hd : d < t.length := by simpa using h
      have : incr (a :: t) (d + 1) = a :: incr t d := by simp [incr]
      rw [this]
      simp only [List.sum_cons, ih d hd]
      omega

/-! ### The raster-position list of the inclusive double loop -/

lemma scanPositions_zero (w : Nat) :
    scanPositions w 0 = (List.range (w + 1)).map fun x => (x, 0) := by
  simp [scanPositions, List.range_succ]

lemma scanPositions_succ (w h : Nat) :
    scanPositions w (h + 1) =
      scanPositions w h ++ ((List.range (w + 1)).map fun x => (x, h + 1)) := by
  simp [scanPositions, List.range_succ (h + 1)]

lemma scanPositions_length (w h : Nat) :
    (scanPositions w h).length = (w + 1) * (h + 1) := by
  induction h with
  | zero => simp [scanPositions_zero]
  | succ h ih =>
    rw [scanPositions_succ, List.length_append, ih]
    simp
    ring

lemma scanPositions_getElem (w h : Nat) : ∀ i, i < (w + 1) * (h + 1) →
    (scanPositions w h)[i]? = some (i % (w + 1), i / (w + 1)) := by
  induction h with
  | zero =>
    intro i hi
    have hi' : i < w + 1 := by simpa using hi
    rw [scanPositions_zero]
    simp [List.getElem?_map, List.getElem?_range hi',
      Nat.mod_eq_of_lt hi', Nat.div_eq_of_lt hi']
  | succ h ih =>
    intro i hi
    rw [scanPositions_succ]
    by_cases hcase : i < (w + 1) * (h + 1)
    · rw [List.getElem?_append_left (by rw [scanPositions_length]; exact hcase)]
      exact ih i hcase
    · push_neg at hcase
      have hexp : (w + 1) * (h + 1 + 1) = (w + 1) * (h + 1) + (w + 1) := by ring
      have hj : i - (w + 1) * (h + 1) < w + 1 := by omega
      rw [List.getElem?_append_right (by rw [scanPositions_length]; exact hcase)]
      rw [scanPositions_length]
      rw [List.getElem?_map, List.getElem?_range hj]
      have hi_eq : i = (w + 1) * (h + 1) + (i - (w + 1) * (h + 1)) := by omega
      have hmod : i % (w + 1) = i - (w + 1) * (h + 1) := by
        conv_lhs => rw [hi_eq]
        rw [Nat.mul_add_mod]
        exact Nat.mod_eq_of_lt hj
      have hdiv : i / (w + 1) = h + 1 := by
        conv_lhs => rw [hi_eq]
        rw [Nat.mul_add_div (Nat.succ_pos w)]
        rw [Nat.div_eq_of_lt hj]
      rw [hmod, hdiv]
      rfl

lemma scanPositions_getD (w h : Nat) (i : Nat) (hi : i < (w + 1) * (h + 1)) :
    (scanPositions w h).getD i (0, 0) = (i % (w + 1), i / (w + 1)) := by
  rw [List.getD_eq_getElem?_getD, scanPositions_getElem w h i hi]
  rfl

lemma scanPositions_mem (w h x y : Nat) (hx : x ≤ w) (hy : y ≤ h) :
    (x, y) ∈ scanPositions w h := by
  have hlt : y * (w + 1) + x < (w + 1) * (h + 1) := by
    calc y * (w + 1) + x < y * (w + 1) + (w + 1) := by omega
    _ = (w + 1) * (y + 1) := by ring
    _ ≤ (w + 1) * (h + 1) := Nat.mul_le_mul_left _ (by omega)
  have hmod : (y * (w + 1) + x) % (w + 1) = x := by
    rw [mul_comm y (w + 1), Nat.mul_add_mod]
    exact Nat.mod_eq_of_lt (by omega)
  have hdiv : (y * (w + 1) + x) / (w + 1) = y := by
    rw [mul_comm y (w + 1), Nat.mul_add_div (Nat.succ_pos w)]
    rw [Nat.div_eq_of_lt (by omega)]
    omega
  have := scanPositions_getElem w h (y * (w + 1) + x) hlt
  rw [hmod, hdiv] at this
  exact List.getElem?_mem this

/-! ### Behavior of the scan loop -/

lemma scan_ok_spec : ∀ (ps : List (Nat × Nat)) (stream : List Nat) (img : Image)
    (occ : List Nat) (img2 : Image) (occ2 t : List Nat), 10 ≤ occ.length →
    scan ps stream img occ = (.ok (img2, occ2), t) →
    t = stream.drop ps.length ∧ ps.length ≤ stream.length ∧
      occ2.length = occ.length ∧ occ2.sum = occ.sum + ps.length := by
  intro ps
  induction ps with
  | nil =>
    intro stream img occ img2 occ2 t h10 heq
    simp only [scan, Prod.mk.injEq, Except.ok.injEq] at heq
    obtain ⟨⟨h1, h2⟩, h3⟩ := heq
    subst h2; subst h3
    simp
  | cons p ps ih =>
    obtain ⟨x, y⟩ := p
    intro stream img occ img2 occ2 t h10 heq
    cases stream with
    | nil => simp [scan] at heq
    | cons b s =>
      simp only [scan] at heq
      by_cases hb : 48 ≤ b ∧ b ≤ 57
      · rw [if_pos hb] at heq
        have h10' : 10 ≤ (incr occ (b - 48)).length := by rw [incr_length]; exact h10
        obtain ⟨ht, hlen, hocclen, hsum⟩ := ih s _ _ img2 occ2 t h10' heq
        refine ⟨by simpa using ht, by simp; omega, by rw [hocclen, incr_length], ?_⟩
        have hd : b - 48 < occ.length := by omega
        rw [hsum, incr_sum occ _ hd]
        simp
        omega
      · rw [if_neg hb] at heq
        by_cases hb10 : b = 10 <;> simp [hb10] at heq

lemma scan_digits_ok : ∀ (ps : List (Nat × Nat)) (stream : List Nat) (img : Image)
    (occ : List Nat), ps.length ≤ stream.length →
    (∀ b ∈ stream.take ps.length, 48 ≤ b ∧ b ≤ 57) →
    ∃ img2 occ2, scan ps stream img occ = (.ok (img2, occ2), stream.drop ps.length) := by
  intro ps
  induction ps with
  | nil => intro stream img occ _ _; exact ⟨img, occ, by simp [scan]⟩
  | cons p ps ih =>
    obtain ⟨x, y⟩ := p
    intro stream img occ hlen hdig
    cases stream with
    | nil => simp at hlen
    | cons b s =>
      have hb : 48 ≤ b ∧ b ≤ 57 := by
        refine hdig b ?_
        simp [List.length_cons, List.take_succ_cons]
      have hdig' : ∀ c ∈ s.take ps.length, 48 ≤ c ∧ c ≤ 57 := by
        intro c hc
        refine hdig c ?_
        simp only [List.length_cons, List.take_succ_cons]
        exact List.mem_cons_of_mem _ hc
      obtain ⟨img2, occ2, h⟩ := ih s (gdImageSetPixel img x y (colorMap (b - 48)))
        (incr occ (b - 48)) (by simpa using hlen) hdig'
      refine ⟨img2, occ2, ?_⟩
      simp only [scan]
      rw [if_pos hb]
      simpa using h

lemma scan_advance : ∀ (pre : List Nat) (ps : List (Nat × Nat)) (rest : List Nat)
    (img : Image) (occ : List Nat), pre.length ≤ ps.length →
    (∀ b ∈ pre, 48 ≤ b ∧ b ≤ 57) →
    ∃ img2 occ2, occ2.length = occ.length ∧
      scan ps (pre ++ rest) img occ = scan (ps.drop pre.length) rest img2 occ2 := by
  intro pre
  induction pre with
  | nil => intro ps rest img occ _ _; exact ⟨img, occ, rfl, by simp⟩
  | cons b pre ih =>
    intro ps rest img occ hlen hdig
    cases ps with
    | nil => simp at hlen
    | cons p ps' =>
      obtain ⟨x, y⟩ := p
      have hb : 48 ≤ b ∧ b ≤ 57 := hdig b (List.mem_cons_self ..)
      obtain ⟨img2, occ2, hocc, h⟩ := ih ps' rest
        (gdImageSetPixel img x y (colorMap (b - 48))) (incr occ (b - 48))
        (by simpa using hlen) (fun c hc => hdig c (List.mem_cons_of_mem _ hc))
      refine ⟨img2, occ2, by rw [hocc, incr_length], ?_⟩
      simp only [List.cons_append, scan]
      rw [if_pos hb]
      simpa using h

lemma scan_image_agree : ∀ (ps : List (Nat × Nat)) (s₁ s₂ : List Nat) (img : Image)
    (occ₁ occ₂ : List Nat),
    ps.length ≤ s₁.length → ps.length ≤ s₂.length →
    (∀ b ∈ s₁.take ps.length, 48 ≤ b ∧ b ≤ 57) →
    (∀ b ∈ s₂.take ps.length, 48 ≤ b ∧ b ≤ 57) →
    (∀ i, i < ps.length → (ps.getD i (0, 0)).1 < img.xsize →
      (ps.getD i (0, 0)).2 < img.ysize → s₁.getD i 0 = s₂.getD i 0) →
    ∃ img2 occA occB,
      scan ps s₁ img occ₁ = (.ok (img2, occA), s₁.drop ps.length) ∧
      scan ps s₂ img occ₂ = (.ok (img2, occB), s₂.drop ps.length) := by
  intro ps
  induction ps with
  | nil =>
    intro s₁ s₂ img occ₁ occ₂ _ _ _ _ _
    exact ⟨img, occ₁, occ₂, by simp [scan], by simp [scan]⟩
  | cons p ps ih =>
    obtain ⟨x, y⟩ := p
    intro s₁ s₂ img occ₁ occ₂ hl₁ hl₂ hd₁ hd₂ hagree
    cases s₁ with
    | nil => simp at hl₁
    | cons b₁ t₁ =>
      cases s₂ with
      | nil => simp at hl₂
      | cons b₂ t₂ =>
        have hb₁ : 48 ≤ b₁ ∧ b₁ ≤ 57 := by
          refine hd₁ b₁ ?_
          simp [List.length_cons, List.take_succ_cons]
        have hb₂ : 48 ≤ b₂ ∧ b₂ ≤ 57 := by
          refine hd₂ b₂ ?_
          simp [List.length_cons, List.take_succ_cons]
        have hd₁' : ∀ c ∈ t₁.take ps.length, 48 ≤ c ∧ c ≤ 57 := by
          intro c hc
          refine hd₁ c ?_
          simp only [List.length_cons, List.take_succ_cons]
          exact List.mem_cons_of_mem _ hc
        have hd₂' : ∀ c ∈ t₂.take ps.length, 48 ≤ c ∧ c ≤ 57 := by
          intro c hc
          refine hd₂ c ?_
          simp only [List.length_cons, List.take_succ_cons]
          exact List.mem_cons_of_mem _ hc
        by_cases hin : x < img.xsize ∧ y < img.ysize
        · have hbb : b₁ = b₂ := by
            have h0 := hagree 0 (by simp) (by simpa using hin.1) (by simpa using hin.2)
            simpa using h0
          subst hbb
          have hagree' : ∀ i, i < ps.length →
              (ps.getD i (0, 0)).1 < (gdImageSetPixel img x y (colorMap (b₁ - 48))).xsize →
              (ps.getD i (0, 0)).2 < (gdImageSetPixel img x y (colorMap (b₁ - 48))).ysize →
              t₁.getD i 0 = t₂.getD i 0 := by
            intro i hi h1 h2
            rw [gdImageSetPixel_xsize] at h1
            rw [gdImageSetPixel_ysize] at h2
            have := hagree (i + 1) (by simp; omega)
              (by simpa [List.getD_cons_succ] using h1)
              (by simpa [List.getD_cons_succ] using h2)
            simpa [List.getD_cons_succ] using this
          obtain ⟨img2, occA, occB, hA, hB⟩ := ih t₁ t₂
            (gdImageSetPixel img x y (colorMap (b₁ - 48)))
            (incr occ₁ (b₁ - 48)) (incr occ₂ (b₁ - 48))
            (by simpa using hl₁) (by simpa using hl₂) hd₁' hd₂' hagree'
          refine ⟨img2, occA, occB, ?_, ?_⟩
          · simp only [scan]
            rw [if_pos hb₁]
            simpa using hA
          · simp only [scan]
            rw [if_pos hb₁]
            simpa using hB
        · have hclip₁ : gdImageSetPixel img x y (colorMap (b₁ - 48)) = img :=
            gdImageSetPixel_oob img x y _ hin
          have hclip₂ : gdImageSetPixel img x y (colorMap (b₂ - 48)) = img :=
            gdImageSetPixel_oob img x y _ hin
          have hagree' : ∀ i, i < ps.length → (ps.getD i (0, 0)).1 < img.xsize →
              (ps.getD i (0, 0)).2 < img.ysize → t₁.getD i 0 = t₂.getD i 0 := by
            intro i hi h1 h2
            have := hagree (i + 1) (by simp; omega)
              (by simpa [List.getD_cons_succ] using h1)
              (by simpa [List.getD_cons_succ] using h2)
            simpa [List.getD_cons_succ] using this
          obtain ⟨img2, occA, occB, hA, hB⟩ := ih t₁ t₂ img
            (incr occ₁ (b₁ - 48)) (incr occ₂ (b₂ - 48))
            (by simpa using hl₁) (by simpa using hl₂) hd₁' hd₂' hagree'
          refine ⟨img2, occA, occB, ?_, ?_⟩
          · simp only [scan]
            rw [if_pos hb₁, hclip₁]
            simpa using hA
          · simp only [scan]
            rw [if_pos hb₂, hclip₂]
            simpa using hB

/-! ### The claims -/

/-- C1: the rasterization scan visits positions in row-major order (rows
outer, columns inner) with both loop bounds inclusive of the size value:
for every width w and height h the position list has exactly
(w+1)·(h+1) entries, the i-th visited position is column i mod (w+1) of
row i div (w+1), and a completed scan has consumed exactly one stream
element per position, in that order. -/
theorem claim_C1 (w h : Nat) :
    (scanPositions w h).length = (w + 1) * (h + 1)
    ∧ (∀ i, i < (w + 1) * (h + 1) →
        (scanPositions w h)[i]? = some (i % (w + 1), i / (w + 1)))
    ∧ (∀ stream img2 occ2 t, rasterize stream w h = (.ok (img2, occ2), t) →
        t = stream.drop ((w + 1) * (h + 1)) ∧ (w + 1) * (h + 1) ≤ stream.length) := by
  refine ⟨scanPositions_length w h, scanPositions_getElem w h, ?_⟩
  intro stream img2 occ2 t heq
  obtain ⟨ht, hlen, -, -⟩ :=
    scan_ok_spec _ stream _ occursInit img2 occ2 t (by simp [occursInit]) heq
  rw [scanPositions_length] at ht hlen
  exact ⟨ht, hlen⟩

theorem claim_C1_w :
    (scanPositions 2 1)[4]? = some (4 % (2 + 1), 4 / (2 + 1))
    ∧ ([54] : List Nat) = ([48, 49, 50, 51, 52, 53, 54] : List Nat).drop ((2 + 1) * (1 + 1))
    ∧ (2 + 1) * (1 + 1) ≤ ([48, 49, 50, 51, 52, 53, 54] : List Nat).length :=
  ⟨(claim_C1 2 1).2.1 4 (by decide),
   (claim_C1 2 1).2.2 [48, 49, 50, 51, 52, 53, 54] ⟨2, 1, [[0, 1]]⟩
     [1, 1, 1, 1, 1, 1, 0, 0, 0, 0] [54] rfl⟩

/-- C2: the size check fails with InsufficientData exactly when fewer
than width·height bytes are available, an input of exactly width·height
bytes passes, and on a too-short input the whole pipeline stops with
InsufficientData before any scanning, whatever the stream holds. -/
theorem claim_C2 (w h avail : Nat) (stream : List Nat) :
    (validate w h avail = .error .InsufficientData ↔ avail < w * h)
    ∧ validate w h (w * h) = .ok ()
    ∧ (stream.length < w * h → run stream w h = .error .InsufficientData) := by
  refine ⟨⟨?_, ?_⟩, ?_, ?_⟩
  · intro hv
    by_contra hc
    push_neg at hc
    unfold validate at hv
    rw [if_neg (by omega)] at hv
    exact absurd hv (by simp)
  · intro hlt
    unfold validate
    rw [if_pos (by omega)]
  · unfold validate
    rw [if_neg (by omega)]
  · intro hlen
    simp only [run, validate]
    rw [if_pos (by omega)]

theorem claim_C2_w :
    (validate 2 2 3 = .error .InsufficientData ↔ 3 < 2 * 2)
    ∧ validate 2 2 (2 * 2) = .ok ()
    ∧ run [48, 49, 50] 2 2 = .error .InsufficientData :=
  ⟨(claim_C2 2 2 3 []).1, (claim_C2 2 2 3 []).2.1,
   (claim_C2 2 2 3 [48, 49, 50]).2.2 (by decide)⟩

/-- C3 as stated is false on the code: a successful 1×1 scan consumes
(1+1)·(1+1) = 4 digits and its histogram sums to 4, not to
width·height = 1. -/
theorem claim_C3_cex :
    histOf (rasterize [48, 48, 48, 48] 1 1) = some [4, 0, 0, 0, 0, 0, 0, 0, 0, 0]
    ∧ ([4, 0, 0, 0, 0, 0, 0, 0, 0, 0] : List Nat).sum ≠ 1 * 1 := by
  decide

/-- C3 (amended): for every successfully completed scan the ten
histogram buckets sum to (width+1)·(height+1) exactly — one increment
per scanned position, the scan visiting one extra row and column. -/
theorem claim_C3 (w h : Nat) (stream : List Nat) (img : Image) (occ t : List Nat)
    (heq : rasterize stream w h = (.ok (img, occ), t)) :
    occ.sum = (w + 1) * (h + 1) := by
  obtain ⟨-, -, -, hsum⟩ :=
    scan_ok_spec _ stream _ occursInit img occ t (by simp [occursInit]) heq
  rw [scanPositions_length] at hsum
  simpa [occursInit] using hsum

theorem claim_C3_w : ([1, 1, 1, 1, 0, 0, 0, 0, 0, 0] : List Nat).sum = (1 + 1) * (1 + 1) :=
  claim_C3 1 1 [48, 49, 50, 51] ⟨1, 1, [[0]]⟩ [1, 1, 1, 1, 0, 0, 0, 0, 0, 0] [] rfl

/-- C4: on any stream whose first (w+1)·(h+1) elements are all ASCII
digits and which is at least that long, the rasterizer succeeds (no
error branch is taken) and the histogram counts sum to (w+1)·(h+1). -/
theorem claim_C4 (w h : Nat) (stream : List Nat)
    (hlen : (w + 1) * (h + 1) ≤ stream.length)
    (hdig : ∀ b ∈ stream.take ((w + 1) * (h + 1)), 48 ≤ b ∧ b ≤ 57) :
    ∃ img occ, rasterize stream w h = (.ok (img, occ), stream.drop ((w + 1) * (h + 1)))
      ∧ occ.sum = (w + 1) * (h + 1) := by
  obtain ⟨img, occ, heq⟩ := scan_digits_ok (scanPositions w h) stream
    (gdImageCreate w h) occursInit
    (by rw [scanPositions_length]; exact hlen)
    (by rw [scanPositions_length]; exact hdig)
  obtain ⟨-, -, -, hsum⟩ :=
    scan_ok_spec _ stream _ occursInit img occ _ (by simp [occursInit]) heq
  rw [scanPositions_length] at heq hsum
  exact ⟨img, occ, heq, by simpa [occursInit] using hsum⟩

theorem claim_C4_w :
    ∃ img occ, rasterize [48, 49, 50, 51] 1 1 =
      (.ok (img, occ), ([48, 49, 50, 51] : List Nat).drop ((1 + 1) * (1 + 1)))
      ∧ occ.sum = (1 + 1) * (1 + 1) :=
  claim_C4 1 1 [48, 49, 50, 51] (by decide) (by decide)

/-- C5: a scanned position whose byte is the ASCII digit d (byte 48+d)
writes colorMap d into the framebuffer at that position and increments
histogram bucket d — the only non-error path; the digit-to-color map is
a bijection (the ten palette entries are pairwise distinct RGB triples),
and digit 0 is mapped to the background color (palette index 0, the
first color allocated). -/
theorem claim_C5 :
    (∀ x y ps d s img occ, d ≤ 9 →
      scan ((x, y) :: ps) ((48 + d) :: s) img occ =
        scan ps s (gdImageSetPixel img x y (colorMap d)) (incr occ d))
    ∧ (∀ d₁, d₁ < 10 → ∀ d₂, d₂ < 10 →
        rgbOfColor (colorMap d₁) = rgbOfColor (colorMap d₂) → d₁ = d₂)
    ∧ colorMap 0 = backgroundColor := by
  refine ⟨?_, by decide, rfl⟩
  intro x y ps d s img occ hd
  simp only [scan]
  rw [if_pos ⟨by omega, by omega⟩]
  have hsub : 48 + d - 48 = d := by omega
  rw [hsub]

theorem claim_C5_w :
    scan [(0, 0)] [48 + 2] (gdImageCreate 1 1) occursInit =
      scan [] [] (gdImageSetPixel (gdImageCreate 1 1) 0 0 (colorMap 2)) (incr occursInit 2)
    ∧ (3 : Nat) = 3 :=
  ⟨claim_C5.1 0 0 [] 2 [] (gdImageCreate 1 1) occursInit (by decide),
   claim_C5.2.1 3 (by decide) 3 (by decide) rfl⟩

/-- C6: if the byte at a scan position is a line-break (10), the
rasterizer stops at once with UnexpectedLineBreak: the bytes after the
break are returned unconsumed whatever they are, and no framebuffer or
histogram is produced. -/
theorem claim_C6 (w h : Nat) (pre suffix : List Nat)
    (hdig : ∀ b ∈ pre, 48 ≤ b ∧ b ≤ 57)
    (hlen : pre.length < (w + 1) * (h + 1)) :
    rasterize (pre ++ 10 :: suffix) w h = (.error .UnexpectedLineBreak, suffix) := by
  obtain ⟨img2, occ2, -, hadv⟩ := scan_advance pre (scanPositions w h) (10 :: suffix)
    (gdImageCreate w h) occursInit (by rw [scanPositions_length]; omega) hdig
  unfold rasterize
  rw [hadv]
  obtain ⟨⟨x, y⟩, ps', hcons⟩ :
      ∃ p ps', (scanPositions w h).drop pre.length = p :: ps' := by
    cases hd : (scanPositions w h).drop pre.length with
    | nil =>
      exfalso
      have := congrArg List.length hd
      rw [List.length_drop, scanPositions_length] at this
      simp at this
      omega
    | cons p ps' => exact ⟨p, ps', rfl⟩
  rw [hcons]
  simp [scan]

theorem claim_C6_w : rasterize [48, 49, 10, 51] 1 1 = (.error .UnexpectedLineBreak, [51]) :=
  claim_C6 1 1 [48, 49] [51] (by decide) (by decide)

/-- C7: reaching end of input before all scan positions are visited
aborts with PrematureEOF (for an all-digit stream shorter than
(w+1)·(h+1) the scan runs out of input and fails), and end-of-stream is
never a normal terminator: a successful scan requires at least
(w+1)·(h+1) stream elements. -/
theorem claim_C7 (w h : Nat) (stream : List Nat) :
    ((∀ b ∈ stream, 48 ≤ b ∧ b ≤ 57) → stream.length < (w + 1) * (h + 1) →
      rasterize stream w h = (.error .PrematureEOF, []))
    ∧ (∀ img occ t, rasterize stream w h = (.ok (img, occ), t) →
      (w + 1) * (h + 1) ≤ stream.length) := by
  constructor
  · intro hdig hlen
    obtain ⟨img2, occ2, -, hadv⟩ := scan_advance stream (scanPositions w h) []
      (gdImageCreate w h) occursInit (by rw [scanPositions_length]; omega) hdig
    rw [List.append_nil] at hadv
    unfold rasterize
    rw [hadv]
    obtain ⟨⟨x, y⟩, ps', hcons⟩ :
        ∃ p ps', (scanPositions w h).drop stream.length = p :: ps' := by
      cases hd : (scanPositions w h).drop stream.length with
      | nil =>
        exfalso
        have := congrArg List.length hd
        rw [List.length_drop, scanPositions_length] at this
        simp at this
        omega
      | cons p ps' => exact ⟨p, ps', rfl⟩
    rw [hcons]
    simp [scan]
  · intro img occ t heq
    obtain ⟨-, hlen, -, -⟩ :=
      scan_ok_spec _ stream _ occursInit img occ t (by simp [occursInit]) heq
    rw [scanPositions_length] at hlen
    exact hlen

theorem claim_C7_w : rasterize [48, 48, 48] 1 1 = (.error .PrematureEOF, []) :=
  (claim_C7 1 1 [48, 48, 48]).1 (by decide) (by decide)

/-- C8: a byte that is neither an ASCII digit nor a line-break, met at
any scan position, aborts the rasterizer at once with
UnsupportedCharacter. -/
theorem claim_C8 (w h : Nat) (pre suffix : List Nat) (b : Nat)
    (hdig : ∀ c ∈ pre, 48 ≤ c ∧ c ≤ 57)
    (hlen : pre.length < (w + 1) * (h + 1))
    (hnb : ¬(48 ≤ b ∧ b ≤ 57)) (hnl : b ≠ 10) :
    rasterize (pre ++ b :: suffix) w h = (.error .UnsupportedCharacter, suffix) := by
  obtain ⟨img2, occ2, -, hadv⟩ := scan_advance pre (scanPositions w h) (b :: suffix)
    (gdImageCreate w h) occursInit (by rw [scanPositions_length]; omega) hdig
  unfold rasterize
  rw [hadv]
  obtain ⟨⟨x, y⟩, ps', hcons⟩ :
      ∃ p ps', (scanPositions w h).drop pre.length = p :: ps' := by
    cases hd : (scanPositions w h).drop pre.length with
    | nil =>
      exfalso
      have := congrArg List.length hd
      rw [List.length_drop, scanPositions_length] at this
      simp at this
      omega
    | cons p ps' => exact ⟨p, ps', rfl⟩
  rw [hcons]
  simp only [scan]
  rw [if_neg hnb, if_neg hnl]

theorem claim_C8_w : rasterize [48, 65, 50, 51] 1 1 = (.error .UnsupportedCharacter, [50, 51]) :=
  claim_C8 1 1 [48] [50, 51] 65 (by decide) (by decide) (by decide) (by decide)

/-- C9: any scan error is terminal for the whole operation: the
pipeline yields no output image (the encoding step is never reached) and
reports exactly the scan's error when the size pre-check had passed. -/
theorem claim_C9 (stream : List Nat) (w h : Nat) (e : SpectraError)
    (herr : (rasterize stream w h).1 = .error e) :
    producedImage (run stream w h) = none
    ∧ (w * h ≤ stream.length → run stream w h = .error e) := by
  obtain ⟨rest, hpair⟩ : ∃ r, rasterize stream w h = (Except.error e, r) :=
    ⟨(rasterize stream w h).2, by rw [← herr]⟩
  by_cases hlen : w * h ≤ stream.length
  · have hv : validate w h stream.length = .ok () := by
      unfold validate
      rw [if_neg (by omega)]
    constructor
    · simp only [run, hv, hpair]
      rfl
    · intro _
      simp only [run, hv, hpair]
  · have hv : validate w h stream.length = .error .InsufficientData := by
      unfold validate
      rw [if_pos (by omega)]
    constructor
    · simp only [run, hv]
      rfl
    · intro hc
      omega

theorem claim_C9_w :
    producedImage (run [48, 10, 50, 51] 1 1) = none
    ∧ (1 * 1 ≤ ([48, 10, 50, 51] : List Nat).length →
        run [48, 10, 50, 51] 1 1 = .error .UnexpectedLineBreak) :=
  claim_C9 [48, 10, 50, 51] 1 1 .UnexpectedLineBreak (by rfl)

/-- C10: the image created for encoding has the nominal dimensions, so
the scan's extra column (x = width) and extra row (y = height) lie
outside it; their pixel writes are clipped by the bounds check (stored
in no image cell) even though each such position is visited, consumes a
stream byte and increments a bucket (a completed scan consumes all
(w+1)·(h+1) bytes and its histogram counts all of them); and the
resulting image is determined only by the stream bytes at in-bounds
positions (x < width, y < height). -/
theorem claim_C10 (w h : Nat) :
    ((gdImageCreate w h).xsize = w ∧ (gdImageCreate w h).ysize = h)
    ∧ (∀ x y, x ≤ w → y ≤ h → (x = w ∨ y = h) →
        (x, y) ∈ scanPositions w h ∧ ¬(x < w ∧ y < h))
    ∧ (∀ (img : Image) (x y c : Nat), ¬(x < img.xsize ∧ y < img.ysize) →
        gdImageSetPixel img x y c = img)
    ∧ (∀ stream img occ t, rasterize stream w h = (.ok (img, occ), t) →
        t = stream.drop ((w + 1) * (h + 1)) ∧ occ.sum = (w + 1) * (h + 1))
    ∧ (∀ s₁ s₂ : List Nat,
        (∀ b ∈ s₁, 48 ≤ b ∧ b ≤ 57) → (∀ b ∈ s₂, 48 ≤ b ∧ b ≤ 57) →
        (w + 1) * (h + 1) ≤ s₁.length → (w + 1) * (h + 1) ≤ s₂.length →
        (∀ x, x < w → ∀ y, y < h →
          s₁.getD (y * (w + 1) + x) 0 = s₂.getD (y * (w + 1) + x) 0) →
        ∃ img occA occB t₁ t₂,
          rasterize s₁ w h = (.ok (img, occA), t₁) ∧
          rasterize s₂ w h = (.ok (img, occB), t₂)) := by
  refine ⟨⟨rfl, rfl⟩, ?_, ?_, ?_, ?_⟩
  · intro x y hx hy hedge
    exact ⟨scanPositions_mem w h x y hx hy, by omega⟩
  · intro img x y c hoob
    exact gdImageSetPixel_oob img x y c hoob
  · intro stream img occ t heq
    obtain ⟨ht, -, -, hsum⟩ :=
      scan_ok_spec _ stream _ occursInit img occ t (by simp [occursInit]) heq
    rw [scanPositions_length] at ht hsum
    exact ⟨ht, by simpa [occursInit] using hsum⟩
  · intro s₁ s₂ hd₁ hd₂ hl₁ hl₂ hagree
    have hps := scanPositions_length w h
    have hag : ∀ i, i < (scanPositions w h).length →
        ((scanPositions w h).getD i (0, 0)).1 < (gdImageCreate w h).xsize →
        ((scanPositions w h).getD i (0, 0)).2 < (gdImageCreate w h).ysize →
        s₁.getD i 0 = s₂.getD i 0 := by
      intro i hi h1 h2
      rw [hps] at hi
      rw [scanPositions_getD w h i hi] at h1 h2
      have h1' : i % (w + 1) < w := by simpa [gdImageCreate] using h1
      have h2' : i / (w + 1) < h := by simpa [gdImageCreate] using h2
      have hx := hagree (i % (w + 1)) h1' (i / (w + 1)) h2'
      have hidx : (i / (w + 1)) * (w + 1) + i % (w + 1) = i := by
        rw [mul_comm]
        exact Nat.div_add_mod i (w + 1)
      rwa [hidx] at hx
    obtain ⟨img2, occA, occB, hA, hB⟩ := scan_image_agree (scanPositions w h) s₁ s₂
      (gdImageCreate w h) occursInit occursInit
      (by rw [hps]; exact hl₁) (by rw [hps]; exact hl₂)
      (fun b hb => hd₁ b (List.mem_of_mem_take hb))
      (fun b hb => hd₂ b (List.mem_of_mem_take hb)) hag
    rw [hps] at hA hB
    exact ⟨img2, occA, occB, _, _, hA, hB⟩

theorem claim_C10_w :
    ((1, 1) ∈ scanPositions 1 1 ∧ ¬(1 < 1 ∧ 1 < 1))
    ∧ gdImageSetPixel (gdImageCreate 1 1) 1 0 5 = gdImageCreate 1 1
    ∧ (([] : List Nat) = ([48, 49, 50, 51] : List Nat).drop ((1 + 1) * (1 + 1))
        ∧ ([1, 1, 1, 1, 0, 0, 0, 0, 0, 0] : List Nat).sum = (1 + 1) * (1 + 1))
    ∧ (∃ img occA occB t₁ t₂,
        rasterize [48, 49, 50, 51] 1 1 = (.ok (img, occA), t₁) ∧
        rasterize [48, 57, 50, 57] 1 1 = (.ok (img, occB), t₂)) :=
  ⟨(claim_C10 1 1).2.1 1 1 (by decide) (by decide) (by decide),
   (claim_C10 1 1).2.2.1 (gdImageCreate 1 1) 1 0 5 (by decide),
   (claim_C10 1 1).2.2.2.1 [48, 49, 50, 51] ⟨1, 1, [[0]]⟩
     [1, 1, 1, 1, 0, 0, 0, 0, 0, 0] [] rfl,
   (claim_C10 1 1).2.2.2.2 [48, 49, 50, 51] [48, 57, 50, 57]
     (by decide) (by decide) (by decide) (by decide) (by decide)⟩
